import Mathlib

/-!
Shallow embedding of the `city-watch/user_management` service core:
the ORM row type and the handlers of `src/main.py`, together with the
token and password helpers of `src/auth_utils.py`.

The relational store is a list of rows in insertion order.  The external
JWT library (python-jose, HS256) and the external password library
(passlib bcrypt) are modelled by concrete executable functions whose
observable behaviour matches the libraries' documented semantics: a keyed
digest recomputed and compared on verification, and a bcrypt digest
recognizable by its ident prefix.  Timestamps are seconds as natural
numbers.  A raised Python exception is an `Except.error` carrying the
message; FastAPI `HTTPException` is a structure of status code and detail.
-/

namespace UserManagement

/-- A row of the `users` table (src/models/user.py, class `User`). -/
structure User where
  user_id : Nat
  name : String
  email : String
  password_hash : String
  role : String
  total_points : Int
  spendable_points : Int
deriving DecidableEq, Repr

/-- The users table: rows in insertion order. -/
abbrev DB := List User

/-- src/auth_utils.py: process-wide symmetric signing secret. -/
def SECRET_KEY : String := "super_secret_jwt_key"

/-- src/auth_utils.py: token lifetime in minutes (24 hours). -/
def ACCESS_TOKEN_EXPIRE_MINUTES : Nat := 60 * 24

/-- The identity claims placed in a token at issuance
(`user_id`, `email`, `role`), before the `exp` claim is added. -/
structure Claims where
  user_id : Nat
  email : String
  role : String
deriving DecidableEq, Repr

/-- Byte view of a string, as fed to the keyed digest. -/
def strBytes (s : String) : List Nat := s.toList.map Char.toNat

/-- FNV-style fold used as the concrete compression function of the
modelled HMAC; the development relies only on verification recomputing
the same function, never on cryptographic properties. -/
def fnvFold (bs : List Nat) : Nat :=
  bs.foldl (fun h b => ((h ^^^ b) * 1099511628211) % (2 ^ 64)) 14695981039346656037

/-- Model of the HS256 signature over the serialized claims and expiry,
keyed by the secret. -/
def macHash (secret : String) (c : Claims) (exp : Nat) : Nat :=
  fnvFold (strBytes secret ++ [0] ++ strBytes (toString c.user_id) ++ [0] ++
    strBytes c.email ++ [0] ++ strBytes c.role ++ [0] ++ strBytes (toString exp))

/-- The signature segment of a token, as its list of bytes
(little-endian bytes of the keyed digest). -/
def macBytes (secret : String) (c : Claims) (exp : Nat) : List Nat :=
  [macHash secret c exp % 256,
   macHash secret c exp / 2 ^ 8 % 256,
   macHash secret c exp / 2 ^ 16 % 256,
   macHash secret c exp / 2 ^ 24 % 256,
   macHash secret c exp / 2 ^ 32 % 256,
   macHash secret c exp / 2 ^ 40 % 256,
   macHash secret c exp / 2 ^ 48 % 256,
   macHash secret c exp / 2 ^ 56 % 256]

/-- A bearer token as presented on the wire: either the segments of a
structurally well-formed JWT (payload claims, expiry claim, signature
bytes), or an arbitrary string that does not parse as a JWT at all. -/
inductive TokenWire
  | wellFormed (claims : Claims) (exp : Nat) (sig : List Nat)
  | malformed (raw : String)
deriving DecidableEq, Repr

/-- src/auth_utils.py `create_access_token`: copies the claims, adds the
absolute expiry `now + 24h`, and signs the payload with the process-wide
secret. -/
def create_access_token (now : Nat) (data : Claims) : TokenWire :=
  .wellFormed data (now + ACCESS_TOKEN_EXPIRE_MINUTES * 60)
    (macBytes SECRET_KEY data (now + ACCESS_TOKEN_EXPIRE_MINUTES * 60))

/-- src/auth_utils.py `decode_access_token`: `jwt.decode` verifies the
signature and the `exp` claim (a token is expired when `exp < now`);
every `JWTError` — signature mismatch, malformed token, expiry in the
past — is caught and `None` is returned, so the function is total. -/
def decode_access_token (now : Nat) : TokenWire → Option Claims
  | .malformed _ => none
  | .wellFormed c e s =>
      if s = macBytes SECRET_KEY c e ∧ ¬ e < now then some c else none

/-- Tampering with a wire token's signature segment: byte `i` of the
signature replaced by `b`. -/
def tamperSig (t : TokenWire) (i : Nat) (b : Nat) : TokenWire :=
  match t with
  | .wellFormed c e s => .wellFormed c e (s.set i b)
  | .malformed raw => .malformed raw

/-- The passlib bcrypt ident marking a recognizable stored digest. -/
def BCRYPT_IDENT : String := "$2b$12$"

/-- src/auth_utils.py `hash_password` = passlib `bcrypt.hash`: a
self-describing one-way digest of the password, recognizable by its
ident.  (The salt is omitted from the model: nothing here relies on two
hashes of one password differing, only on the hash/verify relationship
and the recognizable ident.) -/
def hash_password (password : String) : String :=
  BCRYPT_IDENT ++ toString (fnvFold (strBytes password))

/-- Whether a stored digest is recognizable as a bcrypt hash: it starts
with the bcrypt ident. -/
def recognizableDigest (hashed : String) : Bool :=
  BCRYPT_IDENT.toList.isPrefixOf hashed.toList

/-- passlib `bcrypt.verify`, modelled from the library's documented
behaviour: when the stored digest is not a recognizable bcrypt hash it
raises `ValueError` ("hash could not be identified"); otherwise it
recomputes the digest of the candidate password and compares. -/
def bcryptVerify (plain hashed : String) : Except String Bool :=
  if recognizableDigest hashed then .ok (hashed == hash_password plain)
  else .error "ValueError: hash could not be identified"

/-- src/auth_utils.py `verify_password`: a bare delegation to
`bcrypt.verify` with no exception handling, so a `ValueError` raised on
a malformed stored digest propagates to the caller. -/
def verify_password (plain_password hashed_password : String) : Except String Bool :=
  bcryptVerify plain_password hashed_password

/-- fastapi `HTTPException` as raised by the handlers. -/
structure HTTPException where
  status_code : Nat
  detail : String
deriving DecidableEq, Repr

/-- src/models/user.py `RegisterRequest` (the optional role defaults to
"Citizen" at the validation boundary). -/
structure RegisterRequest where
  name : String
  email : String
  password : String
  role : String
deriving DecidableEq, Repr

/-- src/models/user.py `RegisterResponse`. -/
structure RegisterResponse where
  user_id : Nat
  name : String
  email : String
  role : String
  token : TokenWire
deriving DecidableEq, Repr

/-- src/models/user.py `LoginResponse`. -/
structure LoginResponse where
  user_id : Nat
  name : String
  email : String
  role : String
  token : TokenWire
deriving DecidableEq, Repr

/-- src/models/user.py `LeaderboardEntry`. -/
structure LeaderboardEntry where
  rank : Nat
  name : String
  total_points : Int
deriving DecidableEq, Repr

/-- src/models/user.py `EventType`: the closed enumeration of
gamification event kinds; anything else is rejected with a 422 at the
validation boundary and never reaches the handler. -/
inductive EventType
  | NEW_REPORT
  | CONFIRM_ISSUE
  | REPORT_RESOLVED
deriving DecidableEq, Repr

/-- src/models/user.py `InternalEventRequest`. -/
structure InternalEventRequest where
  user_id : Nat
  event_type : EventType
deriving DecidableEq, Repr

/-- src/models/user.py `InternalEventResponse`. -/
structure InternalEventResponse where
  message : String
  user_id : Nat
  points_added : Int
  new_total : Int
deriving DecidableEq, Repr

/-- src/main.py line 30. -/
def POINTS_NEW_REPORT : Int := 10

/-- src/main.py line 31. -/
def POINTS_CONFIRM_ISSUE : Int := 5

/-- src/main.py line 32. -/
def POINTS_RESOLVED : Int := 20

/-- src/main.py `get_current_user`: decode the bearer token; on failure
401 "Invalid or expired token"; then look the account up by the
`user_id` claim; if absent 401 "User not found"; otherwise return the
account.  The token's email and role claims are never consulted. -/
def get_current_user (now : Nat) (token : TokenWire) (db : DB) :
    Except HTTPException User :=
  match decode_access_token now token with
  | none => .error ⟨401, "Invalid or expired token"⟩
  | some payload =>
    match db.find? (fun u => u.user_id == payload.user_id) with
    | none => .error ⟨401, "User not found"⟩
    | some user => .ok user

/-- src/main.py `register_user`: reject when a row with the email
already exists (400 "Email already registered"); otherwise insert a new
row — `nextId` stands for the primary key the store assigns, and the
point columns take their defaults 0 — and answer with a fresh token. -/
def register_user (now : Nat) (payload : RegisterRequest) (nextId : Nat) (db : DB) :
    Except HTTPException (DB × RegisterResponse) :=
  match db.find? (fun u => u.email == payload.email) with
  | some _ => .error ⟨400, "Email already registered"⟩
  | none =>
    let new_user : User :=
      ⟨nextId, payload.name, payload.email, hash_password payload.password,
       payload.role, 0, 0⟩
    .ok (db ++ [new_user],
      ⟨nextId, payload.name, payload.email, payload.role,
       create_access_token now ⟨nextId, payload.email, payload.role⟩⟩)

/-- src/main.py `login_user`: look the account up by email; a missing
account and a failed password check raise the same
401 "Invalid credentials"; an exception escaping `verify_password`
surfaces as a 500 at the transport layer; on success answer with a
fresh token. -/
def login_user (now : Nat) (email password : String) (db : DB) :
    Except HTTPException LoginResponse :=
  match db.find? (fun u => u.email == email) with
  | none => .error ⟨401, "Invalid credentials"⟩
  | some user =>
    match verify_password password user.password_hash with
    | .error e => .error ⟨500, e⟩
    | .ok false => .error ⟨401, "Invalid credentials"⟩
    | .ok true =>
      .ok ⟨user.user_id, user.name, user.email, user.role,
        create_access_token now ⟨user.user_id, user.email, user.role⟩⟩

/-- `ORDER BY total_points DESC` as a boolean order on rows; the store
breaks ties in its own order, modelled by the stability of the sort. -/
def byPointsDesc (a b : User) : Bool := decide (b.total_points ≤ a.total_points)

/-- The rows selected by the leaderboard query:
`ORDER BY total_points DESC LIMIT 10`. -/
def topUsers (db : DB) : List User := (db.mergeSort byPointsDesc).take 10

/-- src/main.py `get_leaderboard`: the selected rows with 1-based ranks
attached by enumeration order. -/
def get_leaderboard (db : DB) : List LeaderboardEntry :=
  (topUsers db).enum.map (fun p => ⟨p.1 + 1, p.2.name, p.2.total_points⟩)

/-- Points awarded per event kind (src/main.py lines 233-240; the `else`
branch is unreachable through the typed boundary). -/
def pointsFor : EventType → Int
  | .NEW_REPORT => POINTS_NEW_REPORT
  | .CONFIRM_ISSUE => POINTS_CONFIRM_ISSUE
  | .REPORT_RESOLVED => POINTS_RESOLVED

/-- The in-place ORM update `user.total_points += p;
user.spendable_points += p` on the fetched row. -/
def awardPoints (p : Int) (u : User) : User :=
  { u with total_points := u.total_points + p,
           spendable_points := u.spendable_points + p }

/-- Commit of the mutated row: the first row with the matching id (the
one `.first()` fetched) is replaced, all other rows untouched. -/
def updateById (uid : Nat) (p : Int) : DB → DB
  | [] => []
  | u :: rest =>
    if u.user_id == uid then awardPoints p u :: rest
    else u :: updateById uid p rest

/-- src/main.py `process_gamification_event`: find the user (404
"User not found" when absent, raised before any mutation, so the store
is returned unchanged); otherwise award the event's fixed points to both
counters, commit, and report the points added and the new total. -/
def process_gamification_event (event : InternalEventRequest) (db : DB) :
    DB × Except HTTPException InternalEventResponse :=
  match db.find? (fun u => u.user_id == event.user_id) with
  | none => (db, .error ⟨404, "User not found"⟩)
  | some user =>
    (updateById event.user_id (pointsFor event.event_type) db,
     .ok ⟨"Event processed successfully", user.user_id,
          pointsFor event.event_type,
          user.total_points + pointsFor event.event_type⟩)

/-- The stores reachable through this core alone: empty at start, grown
by successful registrations, mutated by gamification events. -/
inductive Reachable : DB → Prop
  | init : Reachable []
  | register (now : Nat) (payload : RegisterRequest) (nextId : Nat)
      (db db' : DB) (r : RegisterResponse) :
      Reachable db → register_user now payload nextId db = .ok (db', r) →
      Reachable db'
  | event (ev : InternalEventRequest) (db : DB) :
      Reachable db → Reachable (process_gamification_event ev db).1

/-! Helper lemmas shared by the claim theorems. -/

theorem updateById_append (uid : Nat) (p : Int) (pre post : DB) (u : User)
    (hpre : ∀ x ∈ pre, (x.user_id == uid) = false)
    (hu : (u.user_id == uid) = true) :
    updateById uid p (pre ++ u :: post) = pre ++ awardPoints p u :: post := by
  induction pre with
  | nil => simp [updateById, hu]
  | cons x xs ih =>
    have hx := hpre x (List.mem_cons_self x xs)
    simp only [List.cons_append, updateById, hx, if_false, Bool.false_eq_true]
    exact congrArg (x :: ·) (ih fun y hy => hpre y (List.mem_cons_of_mem x hy))

theorem map_email_updateById (uid : Nat) (p : Int) (db : DB) :
    (updateById uid p db).map User.email = db.map User.email := by
  induction db with
  | nil => rfl
  | cons u rest ih =>
    by_cases h : (u.user_id == uid) = true
    · simp [updateById, h, awardPoints]
    · simp [updateById, h, ih]

theorem mem_updateById (uid : Nat) (p : Int) (db : DB) (v : User)
    (h : v ∈ updateById uid p db) : v ∈ db ∨ ∃ u ∈ db, v = awardPoints p u := by
  induction db with
  | nil => simp [updateById] at h
  | cons u rest ih =>
    by_cases hc : (u.user_id == uid) = true
    · simp only [updateById, hc, if_true, List.mem_cons] at h
      rcases h with h | h
      · exact Or.inr ⟨u, List.mem_cons_self u rest, h⟩
      · exact Or.inl (List.mem_cons_of_mem u h)
    · simp only [updateById, hc, if_false, Bool.false_eq_true, List.mem_cons] at h
      rcases h with h | h
      · exact Or.inl (h ▸ List.mem_cons_self u rest)
      · rcases ih h with h' | ⟨w, hw, hv⟩
        · exact Or.inl (List.mem_cons_of_mem u h')
        · exact Or.inr ⟨w, List.mem_cons_of_mem u hw, hv⟩

theorem snd_mem_of_mem_enumFrom {α : Type} {y : Nat × α} {n : Nat}
    {l : List α} (h : y ∈ List.enumFrom n l) : y.2 ∈ l := by
  obtain ⟨i, x⟩ := y
  obtain ⟨-, hlt, hx⟩ := List.mem_enumFrom h
  show x ∈ l
  rw [hx]
  exact List.getElem_mem _

theorem pairwise_enumFrom_snd {α : Type} {R : α → α → Prop} {l : List α}
    (h : l.Pairwise R) (n : Nat) :
    (List.enumFrom n l).Pairwise (fun a b => R a.2 b.2) := by
  induction l generalizing n with
  | nil => exact List.Pairwise.nil
  | cons x xs ih =>
    rcases List.pairwise_cons.mp h with ⟨hx, hxs⟩
    exact List.pairwise_cons.mpr
      ⟨fun y hy => hx y.2 (snd_mem_of_mem_enumFrom hy), ih hxs (n + 1)⟩

/-! Claim theorems. -/

/-- C1: applying a gamification event to an existing account adds the
fixed value of the event kind (NEW_REPORT: 10, CONFIRM_ISSUE: 5,
REPORT_RESOLVED: 20) to both `total_points` and `spendable_points` of
that account, and the response reports that points value and the new
total; three sequential events of the three kinds on a fresh account
with counters (0,0) leave both counters at 35. -/
theorem process_event_awards_fixed_points
    (db : DB) (ev : InternalEventRequest) (u : User)
    (h : db.find? (fun v => v.user_id == ev.user_id) = some u) :
    pointsFor .NEW_REPORT = 10 ∧ pointsFor .CONFIRM_ISSUE = 5 ∧
    pointsFor .REPORT_RESOLVED = 20 ∧
    (process_gamification_event ev db).2 =
      .ok ⟨"Event processed successfully", u.user_id, pointsFor ev.event_type,
           u.total_points + pointsFor ev.event_type⟩ ∧
    (awardPoints (pointsFor ev.event_type) u).total_points =
      u.total_points + pointsFor ev.event_type ∧
    (awardPoints (pointsFor ev.event_type) u).spendable_points =
      u.spendable_points + pointsFor ev.event_type ∧
    (∃ pre post, db = pre ++ u :: post ∧
      (process_gamification_event ev db).1 =
        pre ++ awardPoints (pointsFor ev.event_type) u :: post) ∧
    ((process_gamification_event ⟨1, .REPORT_RESOLVED⟩
        (process_gamification_event ⟨1, .CONFIRM_ISSUE⟩
          (process_gamification_event ⟨1, .NEW_REPORT⟩
            [⟨1, "Ada", "ada@example.com", "h", "Citizen", 0, 0⟩]).1).1).1 =
      [⟨1, "Ada", "ada@example.com", "h", "Citizen", 35, 35⟩]) := by
  obtain ⟨hp, pre, post, hdb, hpre⟩ := List.find?_eq_some.mp h
  refine ⟨rfl, rfl, rfl, ?_, rfl, rfl, ⟨pre, post, hdb, ?_⟩, by decide⟩
  · simp [process_gamification_event, h]
  · have hpre' : ∀ x ∈ pre, (x.user_id == ev.user_id) = false := by
      intro x hx
      simpa using hpre x hx
    have h1 : (process_gamification_event ev db).1 =
        updateById ev.user_id (pointsFor ev.event_type) db := by
      simp [process_gamification_event, h]
    rw [h1, hdb]
    exact updateById_append ev.user_id (pointsFor ev.event_type) pre post u hpre' hp

/-- Witness for C1 at a concrete store and event. -/
theorem process_event_awards_fixed_points_witness :
    (process_gamification_event ⟨1, .NEW_REPORT⟩
        [⟨1, "Ada", "ada@example.com", "h", "Citizen", 0, 0⟩]).2 =
      .ok ⟨"Event processed successfully", 1, 10, 0 + 10⟩ :=
  (process_event_awards_fixed_points
    [⟨1, "Ada", "ada@example.com", "h", "Citizen", 0, 0⟩] ⟨1, .NEW_REPORT⟩
    ⟨1, "Ada", "ada@example.com", "h", "Citizen", 0, 0⟩ rfl).2.2.2.1

/-- C2: verifying a token issued from given claims strictly before the
24-hour expiry returns exactly the issued claims; verifying it at any
time strictly after the expiry returns invalid (`none`). -/
theorem token_roundtrip_and_expiry (c : Claims) (now t : Nat) :
    (t < now + ACCESS_TOKEN_EXPIRE_MINUTES * 60 →
      decode_access_token t (create_access_token now c) = some c) ∧
    (now + ACCESS_TOKEN_EXPIRE_MINUTES * 60 < t →
      decode_access_token t (create_access_token now c) = none) := by
  constructor <;> intro h
  · simp only [create_access_token, decode_access_token]
    rw [if_pos ⟨by trivial, by omega⟩]
  · simp only [create_access_token, decode_access_token]
    rw [if_neg]
    rintro ⟨-, hlt⟩
    omega

/-- Witness for C2: a token issued at time 0 decodes to its claims at
time 5, and decodes to none at a time past the expiry. -/
theorem token_roundtrip_and_expiry_witness :
    decode_access_token 5 (create_access_token 0 ⟨1, "ada@example.com", "Citizen"⟩) =
      some ⟨1, "ada@example.com", "Citizen"⟩ ∧
    decode_access_token 90000 (create_access_token 0 ⟨1, "ada@example.com", "Citizen"⟩) =
      none :=
  ⟨(token_roundtrip_and_expiry ⟨1, "ada@example.com", "Citizen"⟩ 0 5).1 (by decide),
   (token_roundtrip_and_expiry ⟨1, "ada@example.com", "Citizen"⟩ 0 90000).2 (by decide)⟩

/-- C4: the authorization guard fails with 401 "Invalid or expired
token" when decoding fails, fails with 401 "User not found" when the
claims' subject id matches no stored account, and otherwise returns the
account found by the subject id — with no hypothesis relating the
token's email or role claims to the account's current state. -/
theorem get_current_user_guard_cases (now : Nat) (token : TokenWire) (db : DB) :
    (decode_access_token now token = none →
      get_current_user now token db = .error ⟨401, "Invalid or expired token"⟩) ∧
    (∀ c, decode_access_token now token = some c →
      db.find? (fun v => v.user_id == c.user_id) = none →
      get_current_user now token db = .error ⟨401, "User not found"⟩) ∧
    (∀ c u, decode_access_token now token = some c →
      db.find? (fun v => v.user_id == c.user_id) = some u →
      get_current_user now token db = .ok u ∧ u.user_id = c.user_id) := by
  refine ⟨fun hd => ?_, fun c hd hf => ?_, fun c u hd hf => ⟨?_, ?_⟩⟩
  · simp [get_current_user, hd]
  · simp [get_current_user, hd, hf]
  · simp [get_current_user, hd, hf]
  · simpa using List.find?_some hf

set_option maxRecDepth 100000 in
/-- Witness for C4 at a concrete token and store: the guard returns the
stored account even though the token's email and role claims disagree
with the account's current email and role. -/
theorem get_current_user_guard_cases_witness :
    get_current_user 5
        (create_access_token 0 ⟨1, "old@example.com", "Admin"⟩)
        [⟨1, "Ada", "new@example.com", "h", "Citizen", 0, 0⟩] =
      .ok ⟨1, "Ada", "new@example.com", "h", "Citizen", 0, 0⟩ :=
  ((get_current_user_guard_cases 5
      (create_access_token 0 ⟨1, "old@example.com", "Admin"⟩)
      [⟨1, "Ada", "new@example.com", "h", "Citizen", 0, 0⟩]).2.2
    ⟨1, "old@example.com", "Admin"⟩
    ⟨1, "Ada", "new@example.com", "h", "Citizen", 0, 0⟩ (by decide) rfl).1

/-- C8: a gamification event for an account id that matches no stored
account yields 404 "User not found" and returns the store entirely
unchanged. -/
theorem event_unknown_account_404_no_change (db : DB) (ev : InternalEventRequest)
    (h : ∀ u ∈ db, u.user_id ≠ ev.user_id) :
    process_gamification_event ev db = (db, .error ⟨404, "User not found"⟩) := by
  have hnone : db.find? (fun u => u.user_id == ev.user_id) = none :=
    List.find?_eq_none.mpr fun x hx => by simpa using h x hx
  simp [process_gamification_event, hnone]

/-- Witness for C8: an event for id 999 against a one-account store. -/
theorem event_unknown_account_404_no_change_witness :
    process_gamification_event ⟨999, .NEW_REPORT⟩
        [⟨1, "Ada", "ada@example.com", "h", "Citizen", 0, 0⟩] =
      ([⟨1, "Ada", "ada@example.com", "h", "Citizen", 0, 0⟩],
       .error ⟨404, "User not found"⟩) :=
  event_unknown_account_404_no_change
    [⟨1, "Ada", "ada@example.com", "h", "Citizen", 0, 0⟩] ⟨999, .NEW_REPORT⟩
    (by decide)

/-- C3: token verification never surfaces an exception: it returns the
invalid result (`none`) on malformed input, on any signature mismatch,
and on an expiry in the past; in particular, replacing a single byte of
a freshly issued token's signature segment by a different value makes
verification return `none` at every time. -/
theorem decode_rejects_invalid_tokens (now : Nat) :
    (∀ raw, decode_access_token now (.malformed raw) = none) ∧
    (∀ c e s, s ≠ macBytes SECRET_KEY c e →
      decode_access_token now (.wellFormed c e s) = none) ∧
    (∀ c e s, e < now → decode_access_token now (.wellFormed c e s) = none) ∧
    (∀ c issued i b,
      i < (macBytes SECRET_KEY c (issued + ACCESS_TOKEN_EXPIRE_MINUTES * 60)).length →
      b ≠ (macBytes SECRET_KEY c (issued + ACCESS_TOKEN_EXPIRE_MINUTES * 60)).getD i 0 →
      decode_access_token now (tamperSig (create_access_token issued c) i b) = none) := by
  refine ⟨fun raw => rfl, fun c e s hs => ?_, fun c e s he => ?_,
    fun c issued i b hi hb => ?_⟩
  · simp only [decode_access_token]
    rw [if_neg]
    rintro ⟨h1, -⟩
    exact hs h1
  · simp only [decode_access_token]
    rw [if_neg]
    rintro ⟨-, h2⟩
    exact h2 he
  · simp only [create_access_token, tamperSig, decode_access_token]
    rw [if_neg]
    rintro ⟨h1, -⟩
    apply hb
    have h2 : ((macBytes SECRET_KEY c
          (issued + ACCESS_TOKEN_EXPIRE_MINUTES * 60)).set i b).getD i 0 =
        (macBytes SECRET_KEY c (issued + ACCESS_TOKEN_EXPIRE_MINUTES * 60)).getD i 0 :=
      congrArg (fun l => List.getD l i 0) h1
    rwa [List.getD_eq_getElem?_getD, List.getElem?_set_self hi, Option.getD_some] at h2

/-- Witness for C3: a well-formed token whose expiry 0 lies before the
verification time 1 decodes to `none`. -/
theorem decode_rejects_invalid_tokens_witness :
    decode_access_token 1 (.wellFormed ⟨1, "ada@example.com", "Citizen"⟩ 0 []) = none :=
  (decode_rejects_invalid_tokens 1).2.2.1 ⟨1, "ada@example.com", "Citizen"⟩ 0 []
    (by decide)

/-- C5: a login for an email matching no account and a login for an
existing email whose password check fails produce the identical
observable outcome, the error 401 "Invalid credentials", so the response
does not reveal whether the email is registered. -/
theorem login_bad_credentials_indistinguishable
    (now : Nat) (db : DB) (email password : String) :
    (db.find? (fun u => u.email == email) = none →
      login_user now email password db = .error ⟨401, "Invalid credentials"⟩) ∧
    (∀ u, db.find? (fun u => u.email == email) = some u →
      verify_password password u.password_hash = .ok false →
      login_user now email password db = .error ⟨401, "Invalid credentials"⟩) := by
  refine ⟨fun h => ?_, fun u hf hv => ?_⟩
  · simp [login_user, h]
  · simp [login_user, hf, hv]

/-- Witness for C5: against a store holding one registered account, the
wrong-password attempt and the unknown-email attempt both yield the very
same 401 outcome. -/
theorem login_bad_credentials_indistinguishable_witness :
    login_user 0 "ada@example.com" "wrong"
        [⟨1, "Ada", "ada@example.com", hash_password "pw", "Citizen", 0, 0⟩] =
      .error ⟨401, "Invalid credentials"⟩ ∧
    login_user 0 "ghost@example.com" "wrong"
        [⟨1, "Ada", "ada@example.com", hash_password "pw", "Citizen", 0, 0⟩] =
      .error ⟨401, "Invalid credentials"⟩ :=
  ⟨(login_bad_credentials_indistinguishable 0
      [⟨1, "Ada", "ada@example.com", hash_password "pw", "Citizen", 0, 0⟩]
      "ada@example.com" "wrong").2
      ⟨1, "Ada", "ada@example.com", hash_password "pw", "Citizen", 0, 0⟩
      (by rfl) (by rfl),
   (login_bad_credentials_indistinguishable 0
      [⟨1, "Ada", "ada@example.com", hash_password "pw", "Citizen", 0, 0⟩]
      "ghost@example.com" "wrong").1 (by rfl)⟩

/-- C6 counterexample: on the malformed stored digest "plaintext",
`verify_password` propagates the library's ValueError (an error outcome)
instead of returning false, so verification does not fail closed. -/
theorem verify_password_malformed_digest_raises :
    verify_password "secret" "plaintext" =
      .error "ValueError: hash could not be identified" ∧
    verify_password "secret" "plaintext" ≠ .ok false := by
  refine ⟨by rfl, fun h => ?_⟩
  rw [show verify_password "secret" "plaintext" =
      .error "ValueError: hash could not be identified" from rfl] at h
  exact Except.noConfusion h

/-- C6 amended: on every malformed stored digest (one not recognizable
as a bcrypt hash), credential verification raises the library's
ValueError to its caller rather than returning false. -/
theorem verify_password_malformed_digest_error (plain hashed : String)
    (h : recognizableDigest hashed = false) :
    verify_password plain hashed =
      .error "ValueError: hash could not be identified" := by
  simp [verify_password, bcryptVerify, h]

/-- Witness for the amended C6 at a concrete malformed digest. -/
theorem verify_password_malformed_digest_error_witness :
    verify_password "secret" "hashedpassword" =
      .error "ValueError: hash could not be identified" :=
  verify_password_malformed_digest_error "secret" "hashedpassword" (by rfl)

/-- C7: a successful registration leaves a row with the registered email
in the store; that row survives every further operation of this core
(events keep all emails, later registrations only append); and a
registration attempt against any store holding a row with the email
fails with 400 "Email already registered" and yields no new store. -/
theorem duplicate_email_registration_rejected (e : String) :
    (∀ now p nid db db' r, p.email = e →
      register_user now p nid db = .ok (db', r) → ∃ u ∈ db', u.email = e) ∧
    (∀ now p nid db, p.email = e → (∃ u ∈ db, u.email = e) →
      register_user now p nid db = .error ⟨400, "Email already registered"⟩) ∧
    (∀ ev db, (∃ u ∈ db, u.email = e) →
      ∃ u ∈ (process_gamification_event ev db).1, u.email = e) ∧
    (∀ now p nid db db' r, register_user now p nid db = .ok (db', r) →
      (∃ u ∈ db, u.email = e) → ∃ u ∈ db', u.email = e) := by
  refine ⟨fun now p nid db db' r hpe hs => ?_, fun now p nid db hpe hex => ?_,
    fun ev db hex => ?_, fun now p nid db db' r hs hex => ?_⟩
  · cases hfind : db.find? (fun u => u.email == p.email) with
    | some w => simp [register_user, hfind] at hs
    | none =>
      simp only [register_user, hfind, Except.ok.injEq, Prod.mk.injEq] at hs
      exact ⟨⟨nid, p.name, p.email, hash_password p.password, p.role, 0, 0⟩,
        by rw [← hs.1]; exact List.mem_append_right db (List.mem_cons_self _ _), hpe⟩
  · obtain ⟨u, hu, hue⟩ := hex
    cases hfind : db.find? (fun v => v.email == p.email) with
    | none =>
      exfalso
      have hnm := List.find?_eq_none.mp hfind u hu
      simp [hue, hpe] at hnm
    | some w => simp [register_user, hfind]
  · obtain ⟨u, hu, hue⟩ := hex
    have he : e ∈ (process_gamification_event ev db).1.map User.email := by
      cases hfind : db.find? (fun v => v.user_id == ev.user_id) with
      | none =>
        simp only [process_gamification_event, hfind]
        exact List.mem_map.mpr ⟨u, hu, hue⟩
      | some w =>
        simp only [process_gamification_event, hfind]
        rw [map_email_updateById]
        exact List.mem_map.mpr ⟨u, hu, hue⟩
    obtain ⟨v, hv, hve⟩ := List.mem_map.mp he
    exact ⟨v, hv, hve⟩
  · obtain ⟨u, hu, hue⟩ := hex
    cases hfind : db.find? (fun v => v.email == p.email) with
    | some w => simp [register_user, hfind] at hs
    | none =>
      simp only [register_user, hfind, Except.ok.injEq, Prod.mk.injEq] at hs
      exact ⟨u, by rw [← hs.1]; exact List.mem_append_left _ hu, hue⟩

/-- Witness for C7: registering a second account with an email already
present in the store fails with the duplicate-email rejection. -/
theorem duplicate_email_registration_rejected_witness :
    register_user 0 ⟨"Bob", "ada@example.com", "pw2", "Citizen"⟩ 2
        [⟨1, "Ada", "ada@example.com", "h", "Citizen", 0, 0⟩] =
      .error ⟨400, "Email already registered"⟩ :=
  (duplicate_email_registration_rejected "ada@example.com").2.1 0
    ⟨"Bob", "ada@example.com", "pw2", "Citizen"⟩ 2
    [⟨1, "Ada", "ada@example.com", "h", "Citizen", 0, 0⟩] rfl
    ⟨⟨1, "Ada", "ada@example.com", "h", "Citizen", 0, 0⟩,
     List.mem_cons_self _ _, rfl⟩

/-- C10: in every store reachable through this core alone — empty at
start, grown by registrations whose new rows take the column defaults
(0, 0), mutated by gamification events that add the same amount to both
counters — every account satisfies total_points = spendable_points. -/
theorem points_balances_equal_invariant (db : DB) (h : Reachable db) :
    ∀ u ∈ db, u.total_points = u.spendable_points := by
  induction h with
  | init => intro u hu; simp at hu
  | register now p nid db db' r hr hs ih =>
    cases hfind : db.find? (fun v => v.email == p.email) with
    | some w => simp [register_user, hfind] at hs
    | none =>
      simp only [register_user, hfind, Except.ok.injEq, Prod.mk.injEq] at hs
      intro u hu
      rw [← hs.1] at hu
      rcases List.mem_append.mp hu with h2 | h2
      · exact ih u h2
      · rw [List.mem_singleton.mp h2]
  | event ev db hr ih =>
    intro u hu
    cases hfind : db.find? (fun v => v.user_id == ev.user_id) with
    | none =>
      simp only [process_gamification_event, hfind] at hu
      exact ih u hu
    | some w =>
      simp only [process_gamification_event, hfind] at hu
      rcases mem_updateById ev.user_id (pointsFor ev.event_type) db u hu with
        h2 | ⟨v, hv, huv⟩
      · exact ih u h2
      · rw [huv]
        simp [awardPoints, ih v hv]

/-- C9: on a store whose accounts have pairwise-distinct total_points,
the leaderboard has min(N, 10) entries in strictly descending order of
total_points with 1-based ranks 1..min(N, 10); the selected rows are the
highest-scoring ones: every row left out scores strictly below every
selected row, and rows beyond the first 10 of the sorted order are
excluded. -/
theorem leaderboard_top10_sorted_ranked (db : DB)
    (hdist : db.Pairwise (fun a b => a.total_points ≠ b.total_points)) :
    (get_leaderboard db).length = min db.length 10 ∧
    (get_leaderboard db).Pairwise (fun a b => b.total_points < a.total_points) ∧
    (∀ i (hi : i < (get_leaderboard db).length),
      ((get_leaderboard db).get ⟨i, hi⟩).rank = i + 1) ∧
    (∃ rest, (topUsers db ++ rest).Perm db ∧
      rest.length = db.length - 10 ∧
      ∀ v ∈ rest, ∀ u ∈ topUsers db, v.total_points < u.total_points) := by
  have h_perm : (db.mergeSort byPointsDesc).Perm db :=
    List.mergeSort_perm db byPointsDesc
  have h_sorted : (db.mergeSort byPointsDesc).Pairwise
      (fun a b => byPointsDesc a b = true) :=
    List.sorted_mergeSort
      (fun a b c hab hbc => by
        simp only [byPointsDesc, decide_eq_true_eq] at *
        exact le_trans hbc hab)
      (fun a b => by
        simp only [byPointsDesc, Bool.or_eq_true, decide_eq_true_eq]
        exact le_total b.total_points a.total_points)
      db
  have h_ne : (db.mergeSort byPointsDesc).Pairwise
      (fun a b => a.total_points ≠ b.total_points) :=
    hdist.perm h_perm.symm (fun h => h.symm)
  have h_strict : (db.mergeSort byPointsDesc).Pairwise
      (fun a b => b.total_points < a.total_points) :=
    (h_sorted.and h_ne).imp (fun h => by
      obtain ⟨h1, h2⟩ := h
      simp only [byPointsDesc, decide_eq_true_eq] at h1
      exact lt_of_le_of_ne h1 h2.symm)
  have h_strict_take : (topUsers db).Pairwise
      (fun a b => b.total_points < a.total_points) :=
    List.Pairwise.sublist (List.take_sublist 10 _) h_strict
  refine ⟨?_, ?_, ?_, ?_⟩
  · simp [get_leaderboard, topUsers, List.enum_length, List.length_take,
      List.length_mergeSort, Nat.min_comm]
  · rw [get_leaderboard, List.pairwise_map]
    exact pairwise_enumFrom_snd h_strict_take 0
  · intro i hi
    simp [get_leaderboard, List.get_eq_getElem, List.getElem_map, List.getElem_enum]
  · refine ⟨(db.mergeSort byPointsDesc).drop 10, ?_, ?_, ?_⟩
    · rw [topUsers, List.take_append_drop]
      exact h_perm
    · simp [List.length_drop, List.length_mergeSort]
    · have h3 := h_strict
      rw [← List.take_append_drop 10 (db.mergeSort byPointsDesc)] at h3
      intro v hv u hu
      exact (List.pairwise_append.mp h3).2.2 u hu v hv

/-- Witness for C9 at a concrete store of two accounts with distinct
scores. -/
theorem leaderboard_top10_sorted_ranked_witness :
    (get_leaderboard [⟨1, "A", "a", "h", "C", 5, 5⟩, ⟨2, "B", "b", "h", "C", 9, 9⟩]).length =
      min ([⟨1, "A", "a", "h", "C", 5, 5⟩, ⟨2, "B", "b", "h", "C", 9, 9⟩] : DB).length 10 ∧
    (get_leaderboard [⟨1, "A", "a", "h", "C", 5, 5⟩, ⟨2, "B", "b", "h", "C", 9, 9⟩]).Pairwise
      (fun a b => b.total_points < a.total_points) ∧
    (∀ i (hi : i < (get_leaderboard
        [⟨1, "A", "a", "h", "C", 5, 5⟩, ⟨2, "B", "b", "h", "C", 9, 9⟩]).length),
      ((get_leaderboard
        [⟨1, "A", "a", "h", "C", 5, 5⟩, ⟨2, "B", "b", "h", "C", 9, 9⟩]).get ⟨i, hi⟩).rank =
        i + 1) ∧
    (∃ rest,
      (topUsers [⟨1, "A", "a", "h", "C", 5, 5⟩, ⟨2, "B", "b", "h", "C", 9, 9⟩] ++ rest).Perm
        [⟨1, "A", "a", "h", "C", 5, 5⟩, ⟨2, "B", "b", "h", "C", 9, 9⟩] ∧
      rest.length =
        ([⟨1, "A", "a", "h", "C", 5, 5⟩, ⟨2, "B", "b", "h", "C", 9, 9⟩] : DB).length - 10 ∧
      ∀ v ∈ rest,
        ∀ u ∈ topUsers [⟨1, "A", "a", "h", "C", 5, 5⟩, ⟨2, "B", "b", "h", "C", 9, 9⟩],
          v.total_points < u.total_points) :=
  leaderboard_top10_sorted_ranked
    [⟨1, "A", "a", "h", "C", 5, 5⟩, ⟨2, "B", "b", "h", "C", 9, 9⟩] (by decide)

set_option maxRecDepth 100000 in
/-- Witness for C10: the store reached by one successful registration
against the empty store satisfies the invariant. -/
theorem points_balances_equal_invariant_witness :
    (⟨1, "Ada", "ada@example.com", hash_password "pw", "Citizen", 0, 0⟩ : User).total_points =
      (⟨1, "Ada", "ada@example.com", hash_password "pw", "Citizen", 0, 0⟩ : User).spendable_points :=
  points_balances_equal_invariant
    (([] : DB) ++
      [(⟨1, "Ada", "ada@example.com", hash_password "pw", "Citizen", 0, 0⟩ : User)])
    (.register 0 ⟨"Ada", "ada@example.com", "pw", "Citizen"⟩ 1 [] _ _ .init rfl)
    ⟨1, "Ada", "ada@example.com", hash_password "pw", "Citizen", 0, 0⟩
    (List.mem_append_right [] (List.mem_cons_self _ _))

end UserManagement
